import Mathlib

/-!
Shallow embedding of the `model-editor` repository (a terminal modal line
editor written in Rust) and proofs about its claimed properties.

Source files embedded: `src/buffer.rs` (line buffer with position-validated
edits and persistence) and `src/editor.rs` (editor state machine and render
arithmetic).

Modelling conventions:
* A Rust `String` holding one line of text is a `List Char`; column indices
  address code units (the spec measures columns in raw code units).
* Fallible Rust functions returning `Result<T, BufferError>` become
  `Except BufferError T`; `&mut self` receivers return the updated `Buffer`.
* A Rust runtime fault (out-of-bounds `Vec::remove`, `String::split_off`
  past the end) is modelled as `none` in an `Option`-wrapped result.
* File-system effects are oracles: `from_file` takes the content of the
  backing file if it exists, `save`/`save_as` take the outcome of the write
  as an `Except BufferError Unit` argument and return the bytes written.
* The cursor fields `cx`, `cy` are `u16` in the source; they are modelled as
  `Nat` with `asU16` applied exactly where the source performs an `as u16`
  cast or u16 (release-mode, wrapping) arithmetic.
-/

namespace ModelEditor

/-- Error type of `buffer.rs` (`BufferError`). The IO payload is dropped:
only the constructor matters to control flow. -/
inductive BufferError where
  | fileNotFound (path : String)
  | ioError
  | invalidLineIndex (i : Nat)
  | invalidColumnIndex (col line : Nat)
deriving DecidableEq, Repr

/-- Display text of a `BufferError` per the `thiserror` attributes in
`buffer.rs`. -/
def errMsg : BufferError → String
  | .fileNotFound p => "File not found: " ++ p
  | .ioError => "IO error"
  | .invalidLineIndex i => "Invalid line index: " ++ toString i
  | .invalidColumnIndex c l =>
      "Invalid column index: " ++ toString c ++ " in line " ++ toString l

/-- The `Buffer` struct of `buffer.rs`: optional backing path, lines, and the
modified (dirty) flag. -/
structure Buffer where
  file : Option String
  lines : List (List Char)
  modified : Bool
deriving DecidableEq, Repr

/-- Strip one trailing carriage return, as Rust's `str::lines` does to each
line that was terminated by a newline. -/
def stripCR (l : List Char) : List Char :=
  if l.getLast? = some '\r' then l.dropLast else l

/-- Rust's `str::lines()` collected to a list: split on every newline, strip
a trailing carriage return from each piece that was followed by a newline,
and drop the final piece when it is empty (a trailing newline produces no
extra empty line; empty content produces no lines at all). -/
def rustLines (s : List Char) : List (List Char) :=
  let ps := s.splitOn '\n'
  ps.dropLast.map stripCR ++
    (match ps.getLast? with
      | none => []
      | some [] => []
      | some l => [l])

/-- Content written by `save`/`save_as`: `self.lines.join("\n")`. -/
def joinLines (ls : List (List Char)) : List Char :=
  List.intercalate ['\n'] ls

/-- `Buffer::from_file`. `content` is the file-system oracle: the full
content of the file at the given path when that file exists, `none` when it
does not. A `Some` path whose file is missing fails with `FileNotFound`; an
existing file is split with `str::lines`; no path yields one empty line. -/
def Buffer.from_file (file : Option String) (content : Option (List Char)) :
    Except BufferError Buffer :=
  match file with
  | some p =>
    match content with
    | none => .error (.fileNotFound p)
    | some c => .ok { file := some p, lines := rustLines c, modified := false }
  | none => .ok { file := none, lines := [[]], modified := false }

/-- `Buffer::len`: number of lines. -/
def Buffer.len (b : Buffer) : Nat :=
  b.lines.length

/-- `Buffer::get_line`. -/
def Buffer.get_line (b : Buffer) (index : Nat) : Except BufferError (List Char) :=
  match b.lines[index]? with
  | some l => .ok l
  | none => .error (.invalidLineIndex index)

/-- `Buffer::insert_char`: insertion is valid at any column up to and
including the line length; marks the buffer modified. -/
def Buffer.insert_char (b : Buffer) (line col : Nat) (c : Char) :
    Except BufferError Buffer :=
  match b.lines[line]? with
  | none => .error (.invalidLineIndex line)
  | some lc =>
    if col > lc.length then .error (.invalidColumnIndex col line)
    else .ok { b with lines := b.lines.set line (lc.insertIdx col c), modified := true }

/-- `Buffer::remove_char`: returns the removed character and the updated
buffer; valid only strictly inside the line. -/
def Buffer.remove_char (b : Buffer) (line col : Nat) :
    Except BufferError (Char × Buffer) :=
  match b.lines[line]? with
  | none => .error (.invalidLineIndex line)
  | some lc =>
    if h : col < lc.length then
      .ok (lc.get ⟨col, h⟩,
           { b with lines := b.lines.set line (lc.eraseIdx col), modified := true })
    else .error (.invalidColumnIndex col line)

/-- `Buffer::line_length`. -/
def Buffer.line_length (b : Buffer) (index : Nat) : Except BufferError Nat :=
  (b.get_line index).map List.length

/-- `Buffer::display_name`. -/
def Buffer.display_name (b : Buffer) : String :=
  match b.file with
  | some path => path
  | none => "[No Name]"

/-- `Buffer::join_with_previous_line`. The source first rejects
`line_index == 0`, then calls `self.lines.remove(line_index)`, which in Rust
faults on an out-of-bounds index: that fault is the `none` result. On the
surviving path the removed line is appended to line `line_index - 1` and the
previous length is returned. The inner `get_line_mut(line_index - 1)?` error
branch is kept for faithfulness although it is unreachable. -/
def Buffer.join_with_previous_line (b : Buffer) (line_index : Nat) :
    Option (Except BufferError (Buffer × Nat)) :=
  if line_index = 0 then some (.error (.invalidLineIndex line_index))
  else
    match b.lines[line_index]? with
    | none => none
    | some current =>
      let rest := b.lines.eraseIdx line_index
      match rest[line_index - 1]? with
      | none => some (.error (.invalidLineIndex (line_index - 1)))
      | some prev =>
        some (.ok ({ b with lines := rest.set (line_index - 1) (prev ++ current),
                            modified := true },
                   prev.length))

/-- `Buffer::delete_line`. Note the order of the checks in the source: the
single-line clear special case is tested before the index bound, so any
index on a one-line buffer clears that line and succeeds. -/
def Buffer.delete_line (b : Buffer) (index : Nat) : Except BufferError Buffer :=
  if b.lines.length = 0 then .error (.invalidLineIndex index)
  else if b.lines.length = 1 then
    .ok { b with lines := [[]], modified := true }
  else if index ≥ b.lines.length then .error (.invalidLineIndex index)
  else .ok { b with lines := b.lines.eraseIdx index, modified := true }

/-- `Buffer::save`. Takes `&self`: the buffer itself cannot change. `io` is
the outcome of `std::fs::write`; the returned value is the content written.
Fails with `FileNotFound "No file path set"` when no backing path is set. -/
def Buffer.save (b : Buffer) (io : Except BufferError Unit) :
    Except BufferError (List Char) :=
  match b.file with
  | none => .error (.fileNotFound "No file path set")
  | some _ =>
    match io with
    | .error e => .error e
    | .ok _ => .ok (joinLines b.lines)

/-- `Buffer::save_as`. Both source branches (overwrite an existing file, or
create parent directories and write a fresh one) write `lines.join("\n")`
and, on success only, rebind `file` to the new path and clear `modified`.
All file-system failures of either branch are folded into the `io` oracle.
Returns the updated buffer and the content written. -/
def Buffer.save_as (b : Buffer) (path : String) (io : Except BufferError Unit) :
    Except BufferError (Buffer × List Char) :=
  match io with
  | .error e => .error e
  | .ok _ =>
    .ok ({ file := some path, lines := b.lines, modified := false },
         joinLines b.lines)

/-- `Mode` enum of `editor.rs`. -/
inductive Mode where
  | normal
  | insert
deriving DecidableEq, Repr

/-- `Actions` enum of `editor.rs`. -/
inductive Actions where
  | moveUp
  | moveDown
  | moveLeft
  | moveRight
  | enterMode (m : Mode)
  | printChar (c : Char)
  | backspace
  | newLine
  | save
  | saveAs (path : String)
  | deleteLine
deriving DecidableEq, Repr

/-- `Editor` struct of `editor.rs`. `cx`/`cy` are `u16` in the source. -/
structure Editor where
  buffer : Buffer
  cx : Nat
  cy : Nat
  row_offset : Nat
  mode : Mode
  status_message : Option String
deriving DecidableEq, Repr

/-- Rust `as u16` cast and wrapping (release-mode) u16 arithmetic. -/
def asU16 (n : Nat) : Nat :=
  n % 65536

/-- `Editor::apply_action`. `io` is the file-system oracle consulted by the
`Save`/`SaveAs` arms; every other arm ignores it. `none` models the two
runtime faults reachable in the source: the unchecked `Vec::remove` inside
`join_with_previous_line` on an out-of-bounds row, and the unchecked
`String::split_off` in the `NewLine` arm when the column is past the end of
the line. -/
def Editor.apply_action (e : Editor) (action : Actions)
    (io : Except BufferError Unit) : Option Editor :=
  match action with
  | .moveLeft =>
    some (if e.cx > 0 then { e with cx := e.cx - 1 } else e)
  | .moveRight =>
    match e.buffer.get_line e.cy with
    | .ok line =>
      some (if e.cx < asU16 line.length then { e with cx := e.cx + 1 } else e)
    | .error _ => some e
  | .moveUp =>
    if e.cy > 0 then
      let cy' := e.cy - 1
      let cx' :=
        match e.buffer.get_line cy' with
        | .ok line => if e.cx > asU16 line.length then asU16 line.length else e.cx
        | .error _ => e.cx
      some { e with cy := cy', cx := cx' }
    else some e
  | .moveDown =>
    if e.cy + 1 < e.buffer.len then
      let cy' := asU16 (e.cy + 1)
      let cx' :=
        match e.buffer.get_line cy' with
        | .ok line => if e.cx > asU16 line.length then asU16 line.length else e.cx
        | .error _ => e.cx
      some { e with cy := cy', cx := cx' }
    else some e
  | .enterMode m =>
    some { e with mode := m }
  | .printChar c =>
    match e.buffer.insert_char e.cy e.cx c with
    | .ok b => some { e with buffer := b, cx := asU16 (e.cx + 1) }
    | .error _ => some e
  | .backspace =>
    if e.cx > 0 then
      match e.buffer.remove_char e.cy (e.cx - 1) with
      | .ok (_, b) => some { e with buffer := b, cx := e.cx - 1 }
      | .error _ => some e
    else if e.cy > 0 then
      match e.buffer.join_with_previous_line e.cy with
      | none => none
      | some (.ok (b, prev_len)) =>
        some { e with buffer := b, cy := e.cy - 1, cx := asU16 prev_len }
      | some (.error _) => some e
    else some e
  | .newLine =>
    match e.buffer.get_line e.cy with
    | .error _ => some e
    | .ok line =>
      if e.cx > line.length then none
      else
        some { e with
                buffer := { e.buffer with
                  lines := (e.buffer.lines.set e.cy (line.take e.cx)).insertIdx
                             (asU16 (e.cy + 1)) (line.drop e.cx) },
                cy := asU16 (e.cy + 1), cx := 0 }
  | .save =>
    match e.buffer.save io with
    | .ok _ => some { e with status_message := some "Saved." }
    | .error err =>
      some { e with status_message := some ("Error saving file: " ++ errMsg err) }
  | .saveAs path =>
    match e.buffer.save_as path io with
    | .ok (b, _) => some { e with buffer := b, status_message := some "Saved (as)." }
    | .error err =>
      some { e with status_message := some ("Error saving file: " ++ errMsg err) }
  | .deleteLine =>
    match e.buffer.delete_line e.cy with
    | .ok b =>
      let cy' := if e.cy ≥ b.len then asU16 (b.len - 1) else e.cy
      let cx' :=
        match b.line_length cy' with
        | .ok len => if e.cx > len then asU16 len else e.cx
        | .error _ => e.cx
      some { e with buffer := b, cy := cy', cx := cx',
                    status_message := some "Line deleted" }
    | .error err =>
      some { e with status_message := some ("Error deleting line: " ++ errMsg err) }

/-- Viewport adjustment at the top of `Editor::render`: scroll up when the
cursor is above the window, down when it is at or below the bottom edge.
`ch` is the content height (`h.saturating_sub(1)` in the caller). -/
def adjustRowOffset (cy ro ch : Nat) : Nat :=
  if cy < ro then cy
  else if cy ≥ ro + ch then cy - ch + 1
  else ro

/-- State-relevant effect of `Editor::render` for a terminal of size
`(w, h)`: the editor with its adjusted `row_offset`, and the `(column, row)`
coordinates of the final `MoveTo` that places the physical cursor. The
source clamps the cursor to `(w-1, h-1)` using its absolute `cy`, without
subtracting `row_offset`. -/
def renderCursor (e : Editor) (w h : Nat) : Editor × Nat × Nat :=
  let ro := adjustRowOffset e.cy e.row_offset (h - 1)
  ({ e with row_offset := ro }, min e.cx (w - 1), min e.cy (h - 1))

/-! Helper definitions and lemmas shared by the claim proofs. -/

/-- The line stored at index `i`, defaulting to the empty line. -/
def nthLine (ls : List (List Char)) (i : Nat) : List Char :=
  (ls[i]?).getD []

/-- The line of a buffer at index `i`. -/
def lineAt (b : Buffer) (i : Nat) : List Char :=
  nthLine b.lines i

/-- The cursor invariant of the editor: the row addresses an existing line,
the column is at most that line's length (equality allowed: cursor after the
last character), and both fit in a `u16` as they do in the source. -/
def cursorInv (e : Editor) : Prop :=
  e.cy < e.buffer.lines.length ∧
  e.cx ≤ (lineAt e.buffer e.cy).length ∧
  e.cx < 65536 ∧ e.cy < 65536

instance (e : Editor) : Decidable (cursorInv e) := by
  unfold cursorInv
  infer_instance

/-- The error, if any, returned by the buffer call that `apply_action`
performs for the given action, mirroring the call sites in `editor.rs`: the
`insert_char` of `PrintChar`, the `remove_char` or `join_with_previous_line`
of `Backspace` (a fault of the latter is not an error return), the
`get_line_mut` of `NewLine`, the `save`/`save_as` of `Save`/`SaveAs`, and
the `delete_line` of `DeleteLine`. Cursor-move and mode actions perform no
fallible buffer call. -/
def buffer_call_error (e : Editor) (a : Actions) (io : Except BufferError Unit) :
    Option BufferError :=
  match a with
  | .printChar c =>
    match e.buffer.insert_char e.cy e.cx c with
    | .error err => some err
    | .ok _ => none
  | .backspace =>
    if e.cx > 0 then
      match e.buffer.remove_char e.cy (e.cx - 1) with
      | .error err => some err
      | .ok _ => none
    else if e.cy > 0 then
      match e.buffer.join_with_previous_line e.cy with
      | some (.error err) => some err
      | _ => none
    else none
  | .newLine =>
    match e.buffer.get_line e.cy with
    | .error err => some err
    | .ok _ => none
  | .save =>
    match e.buffer.save io with
    | .error err => some err
    | .ok _ => none
  | .saveAs path =>
    match e.buffer.save_as path io with
    | .error err => some err
    | .ok _ => none
  | .deleteLine =>
    match e.buffer.delete_line e.cy with
    | .error err => some err
    | .ok _ => none
  | _ => none

theorem mode_cases (m : Mode) : m = Mode.normal ∨ m = Mode.insert := by
  cases m
  · exact Or.inl rfl
  · exact Or.inr rfl

theorem asU16_le (n : Nat) : asU16 n ≤ n :=
  Nat.mod_le n 65536

theorem asU16_lt (n : Nat) : asU16 n < 65536 :=
  Nat.mod_lt n (by omega)

theorem clampU16_le (cx n : Nat) : (if cx > asU16 n then asU16 n else cx) ≤ n := by
  have := asU16_le n
  split <;> omega

theorem clampU16_lt (cx n : Nat) (h : cx < 65536) :
    (if cx > asU16 n then asU16 n else cx) < 65536 := by
  have := asU16_lt n
  split <;> omega

theorem clampLen_le (cx n : Nat) : (if cx > n then asU16 n else cx) ≤ n := by
  have := asU16_le n
  split <;> omega

theorem clampLen_lt (cx n : Nat) (h : cx < 65536) :
    (if cx > n then asU16 n else cx) < 65536 := by
  have := asU16_lt n
  split <;> omega

theorem nthLine_eq {ls : List (List Char)} {i : Nat} (h : i < ls.length) :
    nthLine ls i = ls[i] := by
  unfold nthLine
  rw [List.getElem?_eq_getElem h]
  rfl

theorem nthLine_set_self {ls : List (List Char)} {i : Nat} (h : i < ls.length)
    (v : List Char) : nthLine (ls.set i v) i = v := by
  unfold nthLine
  rw [List.getElem?_set_self (by simpa using h)]
  rfl

theorem set_nthLine_self : ∀ (ls : List (List Char)) (i : Nat), i < ls.length →
    ls.set i (nthLine ls i) = ls := by
  intro ls
  induction ls with
  | nil => intro i h; simp at h
  | cons hd tl ih =>
    intro i h
    cases i with
    | zero => simp [nthLine]
    | succ n =>
      have : nthLine (hd :: tl) (n + 1) = nthLine tl n := by
        simp [nthLine]
      rw [this, List.set_cons_succ, ih n (by simpa using h)]

theorem get_line_ok {b : Buffer} {i : Nat} (h : i < b.lines.length) :
    b.get_line i = .ok (lineAt b i) := by
  unfold Buffer.get_line lineAt nthLine
  simp [List.getElem?_eq_getElem h]

theorem line_length_ok {b : Buffer} {i : Nat} (h : i < b.lines.length) :
    b.line_length i = .ok (lineAt b i).length := by
  unfold Buffer.line_length
  rw [get_line_ok h]
  rfl

theorem insert_char_ok {b : Buffer} {i col : Nat} {c : Char}
    (hi : i < b.lines.length) (hc : col ≤ (lineAt b i).length) :
    b.insert_char i col c =
      .ok { b with lines := b.lines.set i ((lineAt b i).insertIdx col c),
                   modified := true } := by
  have hc' : ¬ col > b.lines[i].length := by
    simp only [lineAt, nthLine_eq hi] at hc
    omega
  unfold Buffer.insert_char
  simp [List.getElem?_eq_getElem hi, hc', lineAt, nthLine_eq hi]

theorem remove_char_ok {b : Buffer} {i col : Nat}
    (hi : i < b.lines.length) (hc : col < (lineAt b i).length) :
    b.remove_char i col =
      .ok ((lineAt b i).get ⟨col, hc⟩,
           { b with lines := b.lines.set i ((lineAt b i).eraseIdx col),
                    modified := true }) := by
  have hc' : col < b.lines[i].length := by
    simpa only [lineAt, nthLine_eq hi] using hc
  unfold Buffer.remove_char
  simp [List.getElem?_eq_getElem hi, hc', lineAt, nthLine_eq hi]

theorem join_ok {b : Buffer} {i : Nat} (h0 : 0 < i) (hi : i < b.lines.length) :
    b.join_with_previous_line i =
      some (.ok ({ b with
          lines := (b.lines.eraseIdx i).set (i - 1)
                     (nthLine (b.lines.eraseIdx i) (i - 1) ++ lineAt b i),
          modified := true },
        (nthLine (b.lines.eraseIdx i) (i - 1)).length)) := by
  have hrest : i - 1 < (b.lines.eraseIdx i).length := by
    rw [List.length_eraseIdx_of_lt hi]
    omega
  unfold Buffer.join_with_previous_line
  rw [if_neg (by omega)]
  simp [List.getElem?_eq_getElem hi, List.getElem?_eq_getElem hrest,
        lineAt, nthLine_eq hi, nthLine_eq hrest]

theorem delete_line_single {b : Buffer} (h : b.lines.length = 1) (index : Nat) :
    b.delete_line index = .ok { b with lines := [[]], modified := true } := by
  unfold Buffer.delete_line
  rw [if_neg (by omega), if_pos h]

theorem delete_line_multi {b : Buffer} {index : Nat} (h1 : 1 < b.lines.length)
    (h2 : index < b.lines.length) :
    b.delete_line index =
      .ok { b with lines := b.lines.eraseIdx index, modified := true } := by
  unfold Buffer.delete_line
  rw [if_neg (by omega), if_neg (by omega), if_neg (by omega)]

theorem cursorInv_set_line {e : Editor} {v : List Char} {cx' : Nat}
    (h1 : e.cy < e.buffer.lines.length) (hx : cx' ≤ v.length) (hx16 : cx' < 65536)
    (h4 : e.cy < 65536) :
    cursorInv { e with
      buffer := { e.buffer with lines := e.buffer.lines.set e.cy v, modified := true },
      cx := cx' } := by
  refine ⟨?_, ?_, hx16, h4⟩
  · simpa using h1
  · show cx' ≤ (nthLine (e.buffer.lines.set e.cy v) e.cy).length
    rw [nthLine_set_self h1]
    exact hx

theorem cursorInv_join {e : Editor} (h1 : e.cy < e.buffer.lines.length)
    (hcy : 0 < e.cy) (h4 : e.cy < 65536) :
    cursorInv { e with
      buffer := { e.buffer with
        lines := (e.buffer.lines.eraseIdx e.cy).set (e.cy - 1)
                   (nthLine (e.buffer.lines.eraseIdx e.cy) (e.cy - 1) ++
                     lineAt e.buffer e.cy),
        modified := true },
      cy := e.cy - 1,
      cx := asU16 (nthLine (e.buffer.lines.eraseIdx e.cy) (e.cy - 1)).length } := by
  have hrest : e.cy - 1 < (e.buffer.lines.eraseIdx e.cy).length := by
    rw [List.length_eraseIdx_of_lt h1]
    omega
  refine ⟨?_, ?_, asU16_lt _, show e.cy - 1 < 65536 by omega⟩
  · show e.cy - 1 < ((e.buffer.lines.eraseIdx e.cy).set _ _).length
    rw [List.length_set]
    exact hrest
  · show asU16 _ ≤ (nthLine ((e.buffer.lines.eraseIdx e.cy).set _ _) (e.cy - 1)).length
    rw [nthLine_set_self hrest]
    rw [List.length_append]
    have := asU16_le (nthLine (e.buffer.lines.eraseIdx e.cy) (e.cy - 1)).length
    omega

/-- C2: after every `apply_action` on an editor whose state satisfies the
cursor invariant, the action completes without fault and the resulting state
satisfies the invariant again — the row is a valid line index, the column is
at most the current line's length — and the mode is one of Normal and
Insert; this covers every action, including DeleteLine on the last row and
Backspace at column 0. -/
theorem apply_action_preserves_invariant (e : Editor) (a : Actions)
    (io : Except BufferError Unit) (h : cursorInv e) :
    ∃ e', e.apply_action a io = some e' ∧ cursorInv e' ∧
      (e'.mode = Mode.normal ∨ e'.mode = Mode.insert) := by
  obtain ⟨h1, h2, h3, h4⟩ := h
  cases a with
  | moveLeft =>
    refine ⟨_, rfl, ?_, mode_cases _⟩
    by_cases hc : e.cx > 0
    · rw [if_pos hc]
      exact ⟨h1, show e.cx - 1 ≤ (lineAt e.buffer e.cy).length by omega,
        show e.cx - 1 < 65536 by omega, h4⟩
    · rw [if_neg hc]
      exact ⟨h1, h2, h3, h4⟩
  | moveRight =>
    simp only [Editor.apply_action, get_line_ok h1]
    by_cases hc : e.cx < asU16 (lineAt e.buffer e.cy).length
    · rw [if_pos hc]
      have hle := asU16_le (lineAt e.buffer e.cy).length
      have hlt := asU16_lt (lineAt e.buffer e.cy).length
      exact ⟨_, rfl,
        ⟨h1, show e.cx + 1 ≤ (lineAt e.buffer e.cy).length by omega,
          show e.cx + 1 < 65536 by omega, h4⟩, mode_cases _⟩
    · rw [if_neg hc]
      exact ⟨_, rfl, ⟨h1, h2, h3, h4⟩, mode_cases _⟩
  | moveUp =>
    simp only [Editor.apply_action]
    by_cases hcy : e.cy > 0
    · have hlt : e.cy - 1 < e.buffer.lines.length := by omega
      rw [if_pos hcy]
      simp only [get_line_ok hlt]
      exact ⟨_, rfl,
        ⟨hlt, clampU16_le _ _, clampU16_lt _ _ h3, show e.cy - 1 < 65536 by omega⟩,
        mode_cases _⟩
    · rw [if_neg hcy]
      exact ⟨_, rfl, ⟨h1, h2, h3, h4⟩, mode_cases _⟩
  | moveDown =>
    simp only [Editor.apply_action, Buffer.len]
    by_cases hcy : e.cy + 1 < e.buffer.lines.length
    · have hlt : asU16 (e.cy + 1) < e.buffer.lines.length := by
        have := asU16_le (e.cy + 1)
        omega
      rw [if_pos hcy]
      simp only [get_line_ok hlt]
      exact ⟨_, rfl, ⟨hlt, clampU16_le _ _, clampU16_lt _ _ h3, asU16_lt _⟩,
        mode_cases _⟩
    · rw [if_neg hcy]
      exact ⟨_, rfl, ⟨h1, h2, h3, h4⟩, mode_cases _⟩
  | enterMode m =>
    exact ⟨_, rfl, ⟨h1, h2, h3, h4⟩, mode_cases _⟩
  | printChar c =>
    simp only [Editor.apply_action, insert_char_ok h1 h2]
    refine ⟨_, rfl, ?_, mode_cases _⟩
    refine cursorInv_set_line h1 ?_ (asU16_lt _) h4
    rw [List.length_insertIdx _ _ h2]
    have := asU16_le (e.cx + 1)
    omega
  | backspace =>
    simp only [Editor.apply_action]
    by_cases hcx : e.cx > 0
    · have hc : e.cx - 1 < (lineAt e.buffer e.cy).length := by omega
      rw [if_pos hcx]
      simp only [remove_char_ok h1 hc]
      refine ⟨_, rfl, ?_, mode_cases _⟩
      refine cursorInv_set_line h1 ?_ (by omega) h4
      rw [List.length_eraseIdx_of_lt hc]
      omega
    · rw [if_neg hcx]
      by_cases hcy : e.cy > 0
      · rw [if_pos hcy]
        simp only [join_ok hcy h1]
        exact ⟨_, rfl, cursorInv_join h1 hcy h4, mode_cases _⟩
      · rw [if_neg hcy]
        exact ⟨_, rfl, ⟨h1, h2, h3, h4⟩, mode_cases _⟩
  | newLine =>
    simp only [Editor.apply_action, get_line_ok h1]
    rw [if_neg (show ¬ e.cx > (lineAt e.buffer e.cy).length by omega)]
    refine ⟨_, rfl,
      ⟨?_, Nat.zero_le _, show (0 : Nat) < 65536 by omega, asU16_lt _⟩,
      mode_cases _⟩
    show asU16 (e.cy + 1) <
      ((e.buffer.lines.set e.cy ((lineAt e.buffer e.cy).take e.cx)).insertIdx
        (asU16 (e.cy + 1)) ((lineAt e.buffer e.cy).drop e.cx)).length
    have hidx : asU16 (e.cy + 1) ≤
        (e.buffer.lines.set e.cy ((lineAt e.buffer e.cy).take e.cx)).length := by
      rw [List.length_set]
      have := asU16_le (e.cy + 1)
      omega
    rw [List.length_insertIdx _ _ hidx, List.length_set]
    have := asU16_le (e.cy + 1)
    omega
  | save =>
    simp only [Editor.apply_action]
    cases hs : e.buffer.save io <;>
      exact ⟨_, rfl, ⟨h1, h2, h3, h4⟩, mode_cases _⟩
  | saveAs path =>
    simp only [Editor.apply_action, Buffer.save_as]
    cases io <;> exact ⟨_, rfl, ⟨h1, h2, h3, h4⟩, mode_cases _⟩
  | deleteLine =>
    simp only [Editor.apply_action, Buffer.len]
    by_cases hlen : e.buffer.lines.length = 1
    · have hcy0 : e.cy = 0 := by omega
      simp only [hcy0, delete_line_single hlen 0]
      refine ⟨_, rfl, ?_, mode_cases _⟩
      show cursorInv
        { e with
          buffer := { e.buffer with lines := [[]], modified := true },
          cy := 0,
          cx := if e.cx > 0 then asU16 0 else e.cx,
          status_message := some "Line deleted" }
      exact ⟨show (0 : Nat) < 1 by omega, clampLen_le _ _, clampLen_lt _ _ h3,
        show (0 : Nat) < 65536 by omega⟩
    · have hlen2 : 1 < e.buffer.lines.length := by omega
      simp only [delete_line_multi hlen2 h1]
      have hl' : (e.buffer.lines.eraseIdx e.cy).length = e.buffer.lines.length - 1 :=
        List.length_eraseIdx_of_lt h1
      by_cases hge : e.cy ≥ (e.buffer.lines.eraseIdx e.cy).length
      · have hcy' : asU16 ((e.buffer.lines.eraseIdx e.cy).length - 1) <
            (e.buffer.lines.eraseIdx e.cy).length := by
          have := asU16_le ((e.buffer.lines.eraseIdx e.cy).length - 1)
          omega
        rw [if_pos hge]
        simp only [line_length_ok
          (b := { e.buffer with lines := e.buffer.lines.eraseIdx e.cy, modified := true })
          hcy']
        refine ⟨_, rfl, ⟨?_, clampLen_le _ _, clampLen_lt _ _ h3, asU16_lt _⟩,
          mode_cases _⟩
        show asU16 ((e.buffer.lines.eraseIdx e.cy).length - 1) <
          (e.buffer.lines.eraseIdx e.cy).length
        exact hcy'
      · have hcy' : e.cy < (e.buffer.lines.eraseIdx e.cy).length := by omega
        rw [if_neg hge]
        simp only [line_length_ok
          (b := { e.buffer with lines := e.buffer.lines.eraseIdx e.cy, modified := true })
          hcy']
        refine ⟨_, rfl, ⟨?_, clampLen_le _ _, clampLen_lt _ _ h3, h4⟩, mode_cases _⟩
        show e.cy < (e.buffer.lines.eraseIdx e.cy).length
        exact hcy'

theorem stripCR_of_no_cr {l : List Char} (h : '\r' ∉ l) : stripCR l = l := by
  unfold stripCR
  rw [if_neg fun hlast => h (List.mem_of_getLast?_eq_some hlast)]

theorem rustLines_joinLines {ls : List (List Char)} (hne : ls ≠ [])
    (hnl : ∀ l ∈ ls, '\n' ∉ l) (hcr : ∀ l ∈ ls, '\r' ∉ l)
    (hlast : ls.getLast hne ≠ []) :
    rustLines (joinLines ls) = ls := by
  have hmap : ls.dropLast.map stripCR = ls.dropLast := by
    have hstrip : ∀ l ∈ ls.dropLast, stripCR l = l := fun l hl =>
      stripCR_of_no_cr (hcr l (List.dropLast_subset _ hl))
    rw [List.map_congr_left hstrip, List.map_id']
  unfold rustLines joinLines
  rw [List.splitOn_intercalate ls '\n' hnl hne]
  simp only [List.getLast?_eq_getLast ls hne, hmap]
  cases hg : ls.getLast hne with
  | nil => exact absurd hg hlast
  | cons c cs =>
    show ls.dropLast ++ [c :: cs] = ls
    rw [← hg]
    exact List.dropLast_append_getLast hne

theorem join_error_imp_zero {b : Buffer} {i : Nat} {err : BufferError}
    (h : b.join_with_previous_line i = some (.error err)) : i = 0 := by
  by_contra h0
  unfold Buffer.join_with_previous_line at h
  rw [if_neg h0] at h
  cases hg : b.lines[i]? with
  | none =>
    rw [hg] at h
    simp at h
  | some cur =>
    have hi : i < b.lines.length := by
      by_contra hh
      rw [List.getElem?_eq_none (by omega)] at hg
      cases hg
    have hrest : i - 1 < (b.lines.eraseIdx i).length := by
      rw [List.length_eraseIdx_of_lt hi]
      omega
    simp only [hg, List.getElem?_eq_getElem hrest] at h
    simp at h

/-- C1: the claim states that `from_file` always produces a buffer with at
least one line — a buffer with zero content being exactly one empty line —
including when loading an existing file whose content is empty. The code
refutes this: loading an existing empty file splits `""` with `str::lines`,
which yields zero lines, so the loaded buffer has line count 0, not 1. -/
theorem from_file_empty_file_zero_lines :
    Buffer.from_file (some "f") (some []) = .ok ⟨some "f", [], false⟩ ∧
    ¬ 1 ≤ (⟨some "f", ([] : List (List Char)), false⟩ : Buffer).lines.length :=
  ⟨rfl, by decide⟩

/-- C2 witness: a concrete invariant-satisfying editor (cursor on the last
row of a two-line buffer) to which the invariant-preservation theorem is
applied for the DeleteLine action. -/
theorem apply_action_preserves_invariant_witness :
    cursorInv ⟨⟨none, [['a'], ['b']], false⟩, 1, 1, 0, Mode.normal, none⟩ ∧
    ∃ e', Editor.apply_action ⟨⟨none, [['a'], ['b']], false⟩, 1, 1, 0, Mode.normal, none⟩
        Actions.deleteLine (.ok ()) = some e' ∧ cursorInv e' ∧
      (e'.mode = Mode.normal ∨ e'.mode = Mode.insert) :=
  ⟨by decide,
   apply_action_preserves_invariant ⟨⟨none, [['a'], ['b']], false⟩, 1, 1, 0, Mode.normal, none⟩
     Actions.deleteLine (.ok ()) (by decide)⟩

/-- C3: the claim states that after a successful `save()` the dirty flag is
false. The code refutes this: `save` takes `&self` and never clears
`modified`, so a modified buffer saved successfully (status "Saved.") is
still marked modified afterwards. Only `save_as` clears the flag. -/
theorem save_success_keeps_dirty :
    Editor.apply_action ⟨⟨some "f", [['a']], true⟩, 0, 0, 0, Mode.normal, none⟩
        Actions.save (.ok ()) =
      some ⟨⟨some "f", [['a']], true⟩, 0, 0, 0, Mode.normal, some "Saved."⟩ ∧
    Buffer.save ⟨some "f", [['a']], true⟩ (.ok ()) = .ok (joinLines [['a']]) ∧
    (⟨some "f", [['a']], true⟩ : Buffer).modified = true :=
  ⟨rfl, rfl, rfl⟩

/-- C4 counterexample: the claim says `delete_line(row)` fails with
InvalidLineIndex for every `row ≥ line_count()`. On a one-line buffer an
out-of-range row instead succeeds and clears the line, because the source
tests the single-line special case before the bound check. -/
theorem delete_line_oob_cex :
    Buffer.delete_line ⟨none, [['a']], false⟩ 5 = .ok ⟨none, [[]], true⟩ ∧
    5 ≥ (⟨none, [['a']], false⟩ : Buffer).lines.length :=
  ⟨rfl, by decide⟩

/-- C4 (amended): for every `row ≥ line_count()`, `delete_line(row)` fails
with InvalidLineIndex and leaves the lines unchanged unless the buffer has
exactly one line, in which case the clear special case applies regardless of
the index and the call succeeds. -/
theorem delete_line_oob (b : Buffer) (row : Nat) (h : row ≥ b.lines.length) :
    (b.lines.length = 1 →
      b.delete_line row = .ok { b with lines := [[]], modified := true }) ∧
    (b.lines.length ≠ 1 →
      b.delete_line row = .error (.invalidLineIndex row)) := by
  constructor
  · intro h1
    exact delete_line_single h1 row
  · intro h1
    unfold Buffer.delete_line
    by_cases h0 : b.lines.length = 0
    · rw [if_pos h0]
    · rw [if_neg h0, if_neg h1, if_pos h]

/-- C4 witness: the amended claim applied to an out-of-range delete on a
two-line buffer, which fails with InvalidLineIndex. -/
theorem delete_line_oob_witness :
    7 ≥ (⟨none, [['a'], ['b']], false⟩ : Buffer).lines.length ∧
    (((⟨none, [['a'], ['b']], false⟩ : Buffer).lines.length = 1 →
        Buffer.delete_line ⟨none, [['a'], ['b']], false⟩ 7 =
          .ok ⟨none, [[]], true⟩) ∧
     ((⟨none, [['a'], ['b']], false⟩ : Buffer).lines.length ≠ 1 →
        Buffer.delete_line ⟨none, [['a'], ['b']], false⟩ 7 =
          .error (.invalidLineIndex 7))) :=
  ⟨by decide, delete_line_oob ⟨none, [['a'], ['b']], false⟩ 7 (by decide)⟩

/-- C5: the claim says `join_with_previous_line` is total and surfaces every
out-of-bounds row as a recoverable InvalidLineIndex error, never a fault.
The code refutes this: `row == 0` is indeed rejected with InvalidLineIndex,
but a row at or past `line_count()` reaches the unchecked `Vec::remove`,
which faults (modelled as `none`) instead of returning an error. -/
theorem join_with_previous_line_oob_faults :
    Buffer.join_with_previous_line ⟨none, [['a']], false⟩ 1 = none ∧
    Buffer.join_with_previous_line ⟨none, [['a']], false⟩ 0 =
      some (.error (.invalidLineIndex 0)) :=
  ⟨rfl, rfl⟩

/-- C6 counterexample: the claim says the save/load round-trip reproduces
the exact line sequence even when it ends in an empty line. It does not:
`["a", ""]` is written as "a\x0a" and loads back as `["a"]` — the trailing
empty line is lost. -/
theorem save_load_roundtrip_cex :
    Buffer.save_as ⟨none, [['a'], []], false⟩ "p" (.ok ()) =
      .ok (⟨some "p", [['a'], []], false⟩, ['a', '\n']) ∧
    Buffer.from_file (some "p") (some ['a', '\n']) =
      .ok ⟨some "p", [['a']], false⟩ ∧
    ([['a']] : List (List Char)) ≠ [['a'], []] :=
  ⟨rfl, rfl, by decide⟩

/-- C6 (amended): for every nonempty line sequence containing no terminator
characters whose final line is nonempty, `save_as(path)` writes the lines
joined by a single newline, and loading that content back with `from_file`
reproduces the exact original line sequence. (A sequence whose final line is
empty loses that final empty line in the round-trip.) -/
theorem save_load_roundtrip (b : Buffer) (path : String) (hne : b.lines ≠ [])
    (hnl : ∀ l ∈ b.lines, '\n' ∉ l) (hcr : ∀ l ∈ b.lines, '\r' ∉ l)
    (hlast : b.lines.getLast hne ≠ []) :
    b.save_as path (.ok ()) =
      .ok ({ file := some path, lines := b.lines, modified := false },
           joinLines b.lines) ∧
    Buffer.from_file (some path) (some (joinLines b.lines)) =
      .ok { file := some path, lines := b.lines, modified := false } := by
  refine ⟨rfl, ?_⟩
  show (Except.ok ⟨some path, rustLines (joinLines b.lines), false⟩ :
      Except BufferError Buffer) =
    Except.ok ⟨some path, b.lines, false⟩
  rw [rustLines_joinLines hne hnl hcr hlast]

/-- C6 witness: the round-trip theorem applied to the one-line buffer
`["a"]`. -/
theorem save_load_roundtrip_witness :
    ((⟨none, [['a']], false⟩ : Buffer).lines ≠ [] ∧
      (∀ l ∈ (⟨none, [['a']], false⟩ : Buffer).lines, '\n' ∉ l) ∧
      (∀ l ∈ (⟨none, [['a']], false⟩ : Buffer).lines, '\r' ∉ l)) ∧
    (Buffer.save_as ⟨none, [['a']], false⟩ "p" (.ok ()) =
        .ok (⟨some "p", [['a']], false⟩, joinLines [['a']]) ∧
      Buffer.from_file (some "p") (some (joinLines [['a']])) =
        .ok ⟨some "p", [['a']], false⟩) :=
  ⟨⟨by decide, by decide, by decide⟩,
   save_load_roundtrip ⟨none, [['a']], false⟩ "p" (by decide) (by decide) (by decide)
     (by decide)⟩

/-- C7: `insert_char` and `remove_char` are exact inverses: for every valid
row, every column up to the line length, and every character, inserting and
then removing at the same position succeeds, returns the inserted character,
and restores every line of the buffer to its previous content. -/
theorem insert_remove_inverse (b : Buffer) (row col : Nat) (c : Char)
    (hr : row < b.lines.length) (hc : col ≤ (lineAt b row).length) :
    ∃ b1 b2, b.insert_char row col c = .ok b1 ∧
      b1.remove_char row col = .ok (c, b2) ∧ b2.lines = b.lines := by
  have hlt : col < ((lineAt b row).insertIdx col c).length := by
    rw [List.length_insertIdx _ _ hc]
    omega
  refine ⟨_, { b with modified := true }, insert_char_ok hr hc, ?_, rfl⟩
  unfold Buffer.remove_char
  simp only [List.getElem?_set_self (show row < b.lines.length from hr)]
  rw [dif_pos hlt]
  rw [List.get_insertIdx_self (lineAt b row) c col hc]
  rw [List.set_set, List.eraseIdx_insertIdx col (lineAt b row)]
  simp only [lineAt]
  rw [set_nthLine_self _ _ hr]

/-- C7 witness: insert and remove at row 0, column 1 of the line "ab". -/
theorem insert_remove_inverse_witness :
    (0 < (⟨none, [['a', 'b']], false⟩ : Buffer).lines.length ∧
      1 ≤ (lineAt ⟨none, [['a', 'b']], false⟩ 0).length) ∧
    ∃ b1 b2, Buffer.insert_char ⟨none, [['a', 'b']], false⟩ 0 1 'x' = .ok b1 ∧
      Buffer.remove_char b1 0 1 = .ok ('x', b2) ∧
      b2.lines = (⟨none, [['a', 'b']], false⟩ : Buffer).lines :=
  ⟨⟨by decide, by decide⟩,
   insert_remove_inverse ⟨none, [['a', 'b']], false⟩ 0 1 'x' (by decide) (by decide)⟩

/-- C8 counterexample: the claim says every failing buffer call turns into a
status message and never faults. PrintChar on an invalid column fails inside
`insert_char` yet leaves the editor completely unchanged — the status
message stays `none` instead of becoming the error — and Backspace at
column 0 with an out-of-bounds row reaches the unchecked `Vec::remove`
inside the join and faults instead of failing gracefully. -/
theorem apply_action_error_cex :
    buffer_call_error ⟨⟨none, [[]], false⟩, 5, 0, 0, Mode.normal, none⟩
        (.printChar 'a') (.ok ()) = some (.invalidColumnIndex 5 0) ∧
    Editor.apply_action ⟨⟨none, [[]], false⟩, 5, 0, 0, Mode.normal, none⟩
        (.printChar 'a') (.ok ()) =
      some ⟨⟨none, [[]], false⟩, 5, 0, 0, Mode.normal, none⟩ ∧
    Editor.apply_action ⟨⟨none, [['a']], false⟩, 0, 5, 0, Mode.normal, none⟩
        .backspace (.ok ()) = none :=
  ⟨rfl, rfl, rfl⟩

/-- C8 (amended): whenever the buffer call underlying an action returns an
error (rather than faulting), `apply_action` completes, leaves the cursor
and the buffer's lines unchanged, and never faults; DeleteLine, Save and
SaveAs record the error as the status message, while a failing PrintChar,
Backspace or NewLine leaves the status message unchanged (the error is
silently dropped). -/
theorem apply_action_error_handling (e : Editor) (a : Actions)
    (io : Except BufferError Unit) (err : BufferError)
    (h : buffer_call_error e a io = some err) :
    ∃ e', e.apply_action a io = some e' ∧ e'.cx = e.cx ∧ e'.cy = e.cy ∧
      e'.buffer.lines = e.buffer.lines ∧
      e'.status_message =
        (match a with
          | .save => some ("Error saving file: " ++ errMsg err)
          | .saveAs _ => some ("Error saving file: " ++ errMsg err)
          | .deleteLine => some ("Error deleting line: " ++ errMsg err)
          | _ => e.status_message) := by
  cases a with
  | moveLeft => simp [buffer_call_error] at h
  | moveRight => simp [buffer_call_error] at h
  | moveUp => simp [buffer_call_error] at h
  | moveDown => simp [buffer_call_error] at h
  | enterMode m => simp [buffer_call_error] at h
  | printChar c =>
    simp only [buffer_call_error] at h
    cases hi : e.buffer.insert_char e.cy e.cx c with
    | ok b =>
      rw [hi] at h
      simp at h
    | error er =>
      rw [hi] at h
      simp at h
      subst h
      simp only [Editor.apply_action, hi]
      exact ⟨_, rfl, rfl, rfl, rfl, rfl⟩
  | backspace =>
    simp only [buffer_call_error] at h
    by_cases hcx : e.cx > 0
    · rw [if_pos hcx] at h
      cases hi : e.buffer.remove_char e.cy (e.cx - 1) with
      | ok p =>
        rw [hi] at h
        simp at h
      | error er =>
        rw [hi] at h
        simp at h
        subst h
        simp only [Editor.apply_action]
        rw [if_pos hcx]
        simp only [hi]
        exact ⟨_, rfl, rfl, rfl, rfl, rfl⟩
    · rw [if_neg hcx] at h
      by_cases hcy : e.cy > 0
      · rw [if_pos hcy] at h
        cases hj : e.buffer.join_with_previous_line e.cy with
        | none =>
          rw [hj] at h
          simp at h
        | some r =>
          cases r with
          | ok p =>
            rw [hj] at h
            simp at h
          | error er =>
            exact absurd (join_error_imp_zero hj) (by omega)
      · rw [if_neg hcy] at h
        simp at h
  | newLine =>
    simp only [buffer_call_error] at h
    cases hg : e.buffer.get_line e.cy with
    | ok l =>
      rw [hg] at h
      simp at h
    | error er =>
      rw [hg] at h
      simp at h
      subst h
      simp only [Editor.apply_action, hg]
      exact ⟨_, rfl, rfl, rfl, rfl, rfl⟩
  | save =>
    simp only [buffer_call_error] at h
    cases hs : e.buffer.save io with
    | ok v =>
      rw [hs] at h
      simp at h
    | error er =>
      rw [hs] at h
      simp at h
      subst h
      simp only [Editor.apply_action, hs]
      exact ⟨_, rfl, rfl, rfl, rfl, rfl⟩
  | saveAs path =>
    simp only [buffer_call_error] at h
    cases hs : e.buffer.save_as path io with
    | ok p =>
      rw [hs] at h
      simp at h
    | error er =>
      rw [hs] at h
      simp at h
      subst h
      simp only [Editor.apply_action, hs]
      exact ⟨_, rfl, rfl, rfl, rfl, rfl⟩
  | deleteLine =>
    simp only [buffer_call_error] at h
    cases hd : e.buffer.delete_line e.cy with
    | ok b =>
      rw [hd] at h
      simp at h
    | error er =>
      rw [hd] at h
      simp at h
      subst h
      simp only [Editor.apply_action, hd]
      exact ⟨_, rfl, rfl, rfl, rfl, rfl⟩

/-- C8 witness: Save on a buffer without a backing path fails with
FileNotFound; the cursor and lines are untouched and the error becomes the
status message. -/
theorem apply_action_error_handling_witness :
    buffer_call_error ⟨⟨none, [['a']], false⟩, 0, 0, 0, Mode.normal, none⟩
        Actions.save (.ok ()) = some (.fileNotFound "No file path set") ∧
    ∃ e', Editor.apply_action ⟨⟨none, [['a']], false⟩, 0, 0, 0, Mode.normal, none⟩
        Actions.save (.ok ()) = some e' ∧
      e'.cx = 0 ∧ e'.cy = 0 ∧ e'.buffer.lines = [['a']] ∧
      e'.status_message =
        some ("Error saving file: " ++ errMsg (.fileNotFound "No file path set")) :=
  ⟨by decide,
   apply_action_error_handling ⟨⟨none, [['a']], false⟩, 0, 0, 0, Mode.normal, none⟩
     Actions.save (.ok ()) (.fileNotFound "No file path set") (by decide)⟩

/-- C9: the render viewport adjustment follows the scroll rule — cursor
above the window scrolls the top up to the cursor row, cursor at or below
the bottom edge scrolls so the cursor lands on the last content row — and
afterwards the cursor row always lies inside the visible window. -/
theorem viewport_adjust_correct (cy ro ch : Nat) (h : 1 ≤ ch) :
    (cy < ro → adjustRowOffset cy ro ch = cy) ∧
    (ro + ch ≤ cy → adjustRowOffset cy ro ch = cy - ch + 1) ∧
    adjustRowOffset cy ro ch ≤ cy ∧ cy < adjustRowOffset cy ro ch + ch := by
  unfold adjustRowOffset
  split_ifs with h1 h2 <;>
    exact ⟨fun hlt => by omega, fun hge => by omega, by omega, by omega⟩

/-- C9 witness: content height 10 and cursor row 19 starting from viewport
top 9, matching the spec's 20-line example: the viewport top becomes 10. -/
theorem viewport_adjust_correct_witness :
    1 ≤ 10 ∧
    ((19 < 9 → adjustRowOffset 19 9 10 = 19) ∧
     (9 + 10 ≤ 19 → adjustRowOffset 19 9 10 = 19 - 10 + 1) ∧
     adjustRowOffset 19 9 10 ≤ 19 ∧ 19 < adjustRowOffset 19 9 10 + 10) :=
  ⟨by decide, viewport_adjust_correct 19 9 10 (by decide)⟩

/-- C10: the claim says the physical cursor row emitted by render is
min(cursor row − viewport_top, h−1). The code refutes this whenever the
viewport has scrolled: it clamps the absolute cursor row, `min(cy, h-1)`,
without subtracting `row_offset`. With 21 lines, cursor row 20, viewport top
15 and terminal height 11, the content row is drawn at screen row 5 but the
cursor is placed at screen row 10. -/
theorem render_cursor_ignores_viewport :
    renderCursor ⟨⟨none, List.replicate 21 [], false⟩, 0, 20, 15, Mode.normal, none⟩
        80 11 =
      (⟨⟨none, List.replicate 21 [], false⟩, 0, 20, 15, Mode.normal, none⟩, 0, 10) ∧
    ¬ (10 : Nat) = min (20 - 15) (11 - 1) :=
  ⟨rfl, by decide⟩

end ModelEditor
